import Mathlib

/-!
Verification development for the go-structs repository: a runtime struct
builder over Go's reflection facility.

Shallow embedding conventions:
* Go panics are modelled as the error branch of an outer Except String layer;
  recoverable Go errors (the error return value of scanInto and of the JSON
  codec) live in an inner Except String layer.
* Machine values are modelled by the inductive type Value. Go slices and maps
  are reference values: a slice or map field holds an optional reference (nil
  when absent) into an explicit Heap of backing stores, so that assignment of
  a slice or map copies the reference and shares the backing store, exactly as
  a Go header assignment does. Pointers are modelled with an owned pointee,
  which is sufficient for the operations verified here (none of them writes
  through a pointer stored in a field). Float64 values are carried opaquely by
  their bit pattern; the repository never computes with them, it only stores
  and moves them.
* Go struct tags are association lists of key and value pairs; the repository
  only ever builds tags of the conventional form via fmt.Sprintf, which this
  models exactly. Tag.get mirrors reflect.StructTag.Get.
* The host JSON encoder and decoder (encoding/json) are not part of this
  repository; MarshalJSON and UnmarshalJSON take them as parameters.
* ASCII names only: exportedness of a field name is first-character
  uppercase, mirroring Go for ASCII identifiers.
-/

/-- Association-list model of a reflect.StructTag. The repository builds tags
with fmt.Sprintf as key:"value" pairs, which this represents directly. -/
abbrev Tag := List (String × String)

/-- Mirrors reflect.StructTag.Get: value of the first matching key, empty
string when the key is absent. -/
def Tag.get (t : Tag) (key : String) : String :=
  match t with
  | [] => ""
  | (k, v) :: rest => if k = key then v else Tag.get rest key

/-- Helper for strings.Contains: is the first list a prefix of the second. -/
def charsPrefix : List Char → List Char → Bool
  | [], _ => true
  | _ :: _, [] => false
  | a :: as, b :: bs => a == b && charsPrefix as bs

/-- Helper for strings.Contains: does the second list contain the first as a
contiguous sublist. -/
def charsContains (sub : List Char) : List Char → Bool
  | [] => charsPrefix sub []
  | c :: cs => charsPrefix sub (c :: cs) || charsContains sub cs

/-- Mirrors strings.Contains s sub. -/
def strContains (s sub : String) : Bool := charsContains sub.data s.data

/-- The reflect.Kind values used by this repository. -/
inductive GoKind where
  | kInvalid | kString | kInt | kFloat64 | kBool | kPtr | kSlice | kMap | kStruct
  deriving DecidableEq

/-- Kind names as printed by reflect.Kind.String, used in panic messages. -/
def GoKind.str : GoKind → String
  | .kInvalid => "invalid"
  | .kString => "string"
  | .kInt => "int"
  | .kFloat64 => "float64"
  | .kBool => "bool"
  | .kPtr => "ptr"
  | .kSlice => "slice"
  | .kMap => "map"
  | .kStruct => "struct"

mutual
/-- Model of a reflect.Type for the kinds this repository manipulates. -/
inductive GoType where
  | tString
  | tInt
  | tFloat
  | tBool
  | tPtr (e : GoType)
  | tSlice (e : GoType)
  | tMap (k v : GoType)
  | tStruct (fs : GFields)
  deriving DecidableEq
/-- Ordered field list of a struct type: each entry carries the data of a
reflect.StructField: Name, Tag, Type, Anonymous, Index. -/
inductive GFields where
  | nil
  | cons (name : String) (tag : Tag) (ty : GoType) (anonymous : Bool)
      (index : List Nat) (rest : GFields)
  deriving DecidableEq
end

/-- A reflect.StructField as a standalone record, used for the builder's
pending descriptor list and for conversion into a GoType. -/
structure GField where
  name : String
  tag : Tag
  ty : GoType
  anonymous : Bool
  index : List Nat
  deriving DecidableEq

def GFields.ofList : List GField → GFields
  | [] => .nil
  | f :: rest => .cons f.name f.tag f.ty f.anonymous f.index (GFields.ofList rest)

def GFields.toList : GFields → List GField
  | .nil => []
  | .cons n t ty an ix rest => ⟨n, t, ty, an, ix⟩ :: GFields.toList rest

def GFields.length : GFields → Nat
  | .nil => 0
  | .cons _ _ _ _ _ rest => rest.length + 1

def GFields.names : GFields → List String
  | .nil => []
  | .cons n _ _ _ _ rest => n :: rest.names

/-- Declared type of the named field of a struct type, if present. -/
def GFields.lookupT : GFields → String → Option GoType
  | .nil, _ => none
  | .cons n _ ty _ _ rest, name => if n = name then some ty else rest.lookupT name

mutual
/-- Model of a Go value as seen through reflect.Value. Slice and map values
hold a reference into the Heap (none models the nil slice or map). A struct
value records its type together with its ordered field values. vInvalid is
the zero reflect.Value. -/
inductive Value where
  | vString (s : String)
  | vInt (n : Int)
  | vFloat (bits : Int)
  | vBool (b : Bool)
  | vPtr (t : GoType) (p : VPtrVal)
  | vSlice (elem : GoType) (r : Option Nat)
  | vMap (kt vt : GoType) (r : Option Nat)
  | vStruct (t : GoType) (fs : VFields)
  | vInvalid
  deriving DecidableEq
/-- Pointee of a pointer value: null models a nil Go pointer. -/
inductive VPtrVal where
  | null
  | somev (v : Value)
  deriving DecidableEq
/-- Ordered field values of a struct value. -/
inductive VFields where
  | nil
  | cons (name : String) (v : Value) (rest : VFields)
  deriving DecidableEq
end

/-- Backing stores for slice and map values. Go slice assignment copies only
the header, so two slice values holding the same reference share one cell. -/
structure Heap where
  slices : List (List Value)
  maps : List (List (Value × Value))
  deriving DecidableEq

/-- Element i of the slice cell r of the heap. -/
def Heap.sliceIndex (h : Heap) (r i : Nat) : Option Value := do
  let cell ← h.slices.get? r
  cell.get? i

/-- In-place update of element i of the slice cell r, as Go code s[i] = v. -/
def Heap.sliceSetIndex (h : Heap) (r i : Nat) (v : Value) : Heap :=
  { h with slices := h.slices.set r ((h.slices.getD r []).set i v) }

/-- Reading element i of a Go slice value: follows the header's reference
into the backing store. -/
def sliceElem (h : Heap) (v : Value) (i : Nat) : Option Value :=
  match v with
  | .vSlice _ (some r) => h.sliceIndex r i
  | _ => none

def Value.isValid : Value → Bool
  | .vInvalid => false
  | _ => true

/-- Mirrors reflect.Value.Kind. -/
def Value.kindV : Value → GoKind
  | .vString _ => .kString
  | .vInt _ => .kInt
  | .vFloat _ => .kFloat64
  | .vBool _ => .kBool
  | .vPtr _ _ => .kPtr
  | .vSlice _ _ => .kSlice
  | .vMap _ _ _ => .kMap
  | .vStruct _ _ => .kStruct
  | .vInvalid => .kInvalid

/-- Mirrors reflect.Type.Kind. -/
def GoType.kind : GoType → GoKind
  | .tString => .kString
  | .tInt => .kInt
  | .tFloat => .kFloat64
  | .tBool => .kBool
  | .tPtr _ => .kPtr
  | .tSlice _ => .kSlice
  | .tMap _ _ => .kMap
  | .tStruct _ => .kStruct

/-- Mirrors reflect.Value.Type; calling Type on the zero Value panics. -/
def Value.typeV : Value → Except String GoType
  | .vString _ => .ok .tString
  | .vInt _ => .ok .tInt
  | .vFloat _ => .ok .tFloat
  | .vBool _ => .ok .tBool
  | .vPtr t _ => .ok (.tPtr t)
  | .vSlice e _ => .ok (.tSlice e)
  | .vMap k v _ => .ok (.tMap k v)
  | .vStruct t _ => .ok t
  | .vInvalid => .error "reflect: call of reflect.Value.Type on zero Value"

/-- Mirrors reflect.Type.Elem for pointer, slice and map types. Elem of any
other kind panics in Go; the repository only calls it behind kind checks, so
the other cases are unreachable and return the type unchanged. -/
def GoType.elemT : GoType → GoType
  | .tPtr e => e
  | .tSlice e => e
  | .tMap _ v => v
  | t => t

/-- Mirrors reflect.Value.Elem on a pointer value: the pointee, or the zero
Value for a nil pointer. The repository only calls Elem behind pointer kind
checks, so the remaining cases are unreachable and yield the zero Value. -/
def Value.elemV : Value → Value
  | .vPtr _ (.somev v) => v
  | _ => .vInvalid

/-- First field value with the given name. Go struct types never repeat a
field name, so first-match lookup is exact. -/
def VFields.lookup : VFields → String → Option Value
  | .nil, _ => none
  | .cons n v rest, name => if n = name then some v else rest.lookup name

/-- Replace the value of every field with the given name (Go struct types
never repeat a name, so at most one entry is replaced). -/
def VFields.upd : VFields → String → Value → VFields
  | .nil, _, _ => .nil
  | .cons n v rest, name, new =>
    if n = name then .cons n new (rest.upd name new)
    else .cons n v (rest.upd name new)

/-- Field entry at position i: its name and its value. -/
def VFields.getEntry : VFields → Nat → Option (String × Value)
  | .nil, _ => none
  | .cons n v _, 0 => some (n, v)
  | .cons _ _ rest, i+1 => rest.getEntry i

/-- Replace the field value at position i. -/
def VFields.setAt : VFields → Nat → Value → VFields
  | .nil, _, _ => .nil
  | .cons n _ rest, 0, new => .cons n new rest
  | .cons n v rest, i+1, new => .cons n v (rest.setAt i new)

def VFields.names : VFields → List String
  | .nil => []
  | .cons n _ rest => n :: rest.names

def VFields.length : VFields → Nat
  | .nil => 0
  | .cons _ _ rest => rest.length + 1

/-- Mirrors reflect.Value.FieldByName: panics unless the receiver is a struct
value; yields the zero Value when no field has the given name. -/
def Value.fieldByNameV (v : Value) (name : String) : Except String Value :=
  match v with
  | .vStruct _ fs => .ok ((fs.lookup name).getD .vInvalid)
  | .vInvalid => .error "reflect: call of reflect.Value.FieldByName on zero Value"
  | _ => .error "reflect: call of reflect.Value.FieldByName on non-struct Value"

/-- Mirrors reflect.Value.Field: panics unless the receiver is a struct value
and the index is in range. -/
def Value.fieldV (v : Value) (i : Nat) : Except String Value :=
  match v with
  | .vStruct _ fs =>
    match fs.getEntry i with
    | some p => .ok p.2
    | none => .error "reflect: Field index out of range"
  | .vInvalid => .error "reflect: call of reflect.Value.Field on zero Value"
  | _ => .error "reflect: call of reflect.Value.Field on non-struct Value"

/-- Write through reflect.Value.Set on a field reached by name: replaces the
named field of a struct value, other values unchanged (unreachable: the
callers establish the receiver is a struct first). -/
def Value.setFieldByNameV (v : Value) (name : String) (new : Value) : Value :=
  match v with
  | .vStruct t fs => .vStruct t (fs.upd name new)
  | _ => v

/-- Write through reflect.Value.Set on a field reached by position. -/
def Value.setFieldAtV (v : Value) (i : Nat) (new : Value) : Value :=
  match v with
  | .vStruct t fs => .vStruct t (fs.setAt i new)
  | _ => v

/-- Steps after the first of reflect.Value.FieldByIndex: between consecutive
indices a pointer to struct is dereferenced (Go panics on a nil pointer
there; this model reports the subsequent non-struct field access instead,
an error either way and unreachable through this repository's builders). -/
def fieldByIndexLoop (v : Value) : List Nat → Except String Value
  | [] => .ok v
  | x :: rest => do
    let v : Value := match v with
      | .vPtr t (.somev u) => if t.kind = .kStruct then u else .vPtr t (.somev u)
      | w => w
    fieldByIndexLoop (← v.fieldV x) rest

/-- Mirrors reflect.Value.FieldByIndex. With a single index it is Field; with
an empty index list the receiver itself is returned after the struct kind
check, which is the case DeepCopy exercises, since AddField leaves the Index
of every descriptor empty. -/
def Value.fieldByIndexV (v : Value) (idx : List Nat) : Except String Value :=
  match idx with
  | [i] => v.fieldV i
  | [] =>
    match v with
    | .vStruct t fs => .ok (.vStruct t fs)
    | _ => .error "reflect: FieldByIndex of non-struct Value"
  | i :: rest =>
    match v with
    | .vStruct t fs => do fieldByIndexLoop (← (Value.vStruct t fs).fieldV i) rest
    | _ => .error "reflect: FieldByIndex of non-struct Value"

/-- Exportedness of a Go identifier: first character uppercase (ASCII). -/
def isExported (n : String) : Bool :=
  match n.data with
  | [] => false
  | c :: _ => c.isUpper

/-- Walk of reflect CanSet along a FieldByIndex path: tracks whether any
traversed field was unexported (the read-only flag). Yields the reached
value and the flag, or none when the path leaves struct values. -/
def canSetWalk (v : Value) (ro : Bool) : List Nat → Option (Value × Bool)
  | [] => some (v, ro)
  | x :: rest =>
    match v with
    | .vStruct _ fs =>
      match fs.getEntry x with
      | some (n, w) =>
        let ro := ro || !isExported n
        match rest with
        | [] => some (w, ro)
        | _ =>
          match w with
          | .vPtr t (.somev u) =>
            if t.kind = .kStruct then canSetWalk u ro rest
            else canSetWalk (Value.vPtr t (.somev u)) ro rest
          | w' => canSetWalk w' ro rest
      | none => none
    | _ => none

/-- CanSet of the location reached from an addressable root by FieldByIndex
idx, followed by one Elem when deref is set: addressable and not read-only.
The root here is always the builder's owned instance, which is addressable. -/
def canSetAt (v : Value) (idx : List Nat) (deref : Bool) : Bool :=
  match canSetWalk v false idx with
  | none => false
  | some (w, ro) =>
    if deref then
      match w with
      | .vPtr _ (.somev _) => !ro
      | _ => false
    else w.isValid && !ro

/-- Final write of reflect.Value.Set at the end of a FieldByIndex walk: when
deref is set, the written location is the pointee of the reached pointer. -/
def writeAtEnd (w : Value) (deref : Bool) (new : Value) : Value :=
  if deref then
    match w with
    | .vPtr t (.somev _) => .vPtr t (.somev new)
    | w0 => w0
  else new

/-- Write to the location reached by FieldByIndex idx, followed by one Elem
when deref is set. Mirrors reflect.Value.Set after the callers' CanSet and
kind checks; unreachable shapes leave the value unchanged. -/
def writeAt : Value → List Nat → Bool → Value → Value
  | v, [], deref, new => writeAtEnd v deref new
  | v, [x], deref, new =>
    match v with
    | .vStruct t fs =>
      match fs.getEntry x with
      | some (_, w) => .vStruct t (fs.setAt x (writeAtEnd w deref new))
      | none => .vStruct t fs
    | w => w
  | v, x :: r0 :: rs0, deref, new =>
    match v with
    | .vStruct t fs =>
      match fs.getEntry x with
      | some (_, w) =>
        let w' : Value :=
          match w with
          | .vPtr pt (.somev u) =>
            if pt.kind = .kStruct then
              .vPtr pt (.somev (writeAt u (r0 :: rs0) deref new))
            else .vPtr pt (.somev u)
          | w'' => writeAt w'' (r0 :: rs0) deref new
        .vStruct t (fs.setAt x w')
      | none => .vStruct t fs
    | w => w

mutual
/-- Mirrors reflect.New(t).Elem(): the zero value of a type. Zero slices,
maps and pointers are nil; zero structs are fieldwise zero. -/
def zeroValue : GoType → Value
  | .tString => .vString ""
  | .tInt => .vInt 0
  | .tFloat => .vFloat 0
  | .tBool => .vBool false
  | .tPtr e => .vPtr e .null
  | .tSlice e => .vSlice e none
  | .tMap k v => .vMap k v none
  | .tStruct fs => .vStruct (.tStruct fs) (zeroFields fs)
def zeroFields : GFields → VFields
  | .nil => .nil
  | .cons n _ ty _ _ rest => .cons n (zeroValue ty) (zeroFields rest)
end

/-- Duplicate-name scan over pending descriptors, as reflect.StructOf checks. -/
def hasDupNames : List GField → Bool
  | [] => false
  | f :: rest => rest.any (fun g => g.name == f.name) || hasDupNames rest

/-- Mirrors reflect.StructOf: panics when a field name is empty or unexported
without a package path, or when two fields share a name; otherwise yields the
synthesized struct type, with the Index of field i set to the one-element
list i, as reflect reports it. -/
def structOf (l : List GField) : Except String GoType :=
  if l.any (fun f => !isExported f.name) then
    .error "reflect.StructOf: field is unexported but missing PkgPath"
  else if hasDupNames l then
    .error "reflect.StructOf: duplicate field name"
  else
    .ok (.tStruct (GFields.ofList (l.enum.map (fun p => { p.2 with index := [p.1] }))))

/-!
The repository's own definitions, translated function by function from the
source file. Panics are the error branch of the outer Except String layer.
-/

/-- Source: func IsRequired(field reflect.StructField) bool. -/
def IsRequired (field : GField) : Bool :=
  strContains (field.tag.get "structs") "required"

/-- Source: type Struct struct. The Go zero values of the type and instance
fields (nil reflect.Type, zero reflect.Value) are an empty placeholder type
and the zero Value; every operation that touches them is guarded by made. -/
structure Struct where
  tag : String
  fieldsByName : List GField
  sstruct : GoType
  structValue : Value
  made : Bool
  deriving DecidableEq

/-- Source: func New(tag string) *Struct. -/
def New (tag : String) : Struct :=
  { tag := tag, fieldsByName := [], sstruct := .tStruct .nil,
    structValue := .vInvalid, made := false }

/-- Source: func (s *Struct) checkMade(msg string): panics with msg when the
struct has not been made. -/
def Struct.checkMade (s : Struct) (msg : String) : Except String Unit :=
  if !s.made then .error msg else .ok ()

/-- Source: func (s *Struct) FieldByName(name string) reflect.Value. -/
def Struct.FieldByNameOp (s : Struct) (name : String) : Except String Value := do
  s.checkMade "Cannot get field by name if struct has not been made"
  s.structValue.fieldByNameV name

/-- Mirrors reflect.Type.Field on a struct type. -/
def GoType.fieldT (t : GoType) (i : Nat) : Except String GField :=
  match t with
  | .tStruct fs =>
    match (GFields.toList fs).get? i with
    | some f => .ok f
    | none => .error "reflect: Field index out of range"
  | _ => .error "reflect: Field of non-struct type"

/-- Source: func (s *Struct) Field(index int) reflect.StructField. -/
def Struct.FieldOp (s : Struct) (index : Nat) : Except String GField := do
  s.checkMade "Cannot get field by index if struct has not been made"
  s.sstruct.fieldT index

/-- Source: func (s *Struct) IsValid() bool. -/
def Struct.IsValidOp (s : Struct) : Bool :=
  s.made && s.structValue.isValid

/-- Source: func (s *Struct) NumField() int. -/
def Struct.NumField (s : Struct) : Nat :=
  if !s.made then 0
  else match s.sstruct with
    | .tStruct fs => fs.length
    | _ => 0

/-- Source: func (s *Struct) NumUninitializedField() int. -/
def Struct.NumUninitializedField (s : Struct) : Nat :=
  s.fieldsByName.length

/-- Source: func (s *Struct) Interface() interface. Yields the owned
instance. -/
def Struct.InterfaceOp (s : Struct) : Except String Value := do
  s.checkMade "Cannot get interface if struct has not been made"
  pure s.structValue

/-- Source: func (s *Struct) PtrTo() interface: structValue.Addr().
In Go the result aliases the owned instance; here the handle carries the
instance by value, which the guard claims do not distinguish. -/
def Struct.PtrTo (s : Struct) : Except String Value := do
  s.checkMade "Cannot get pointer to if struct has not been made"
  pure (.vPtr s.sstruct (.somev s.structValue))

/-- Source: func valueOf(v interface) reflect.Value. The Go function
distinguishes a reflect.Value argument from any other value; the embedding's
Value plays both roles, so this is the identity. -/
def valueOf (v : Value) : Value := v

/-- Source: func (s *Struct) SetField(name string, value interface).
The final field.Set never panics here: fields of the synthesized type are
exported and the owned instance is addressable. -/
def Struct.SetField (s : Struct) (name : String) (value : Value) : Except String Struct := do
  s.checkMade "Cannot set field if struct has not been made"
  let field ← s.structValue.fieldByNameV name
  if !field.isValid then
    .error ("Field " ++ name ++ " does not exist")
  else
    let v : Value := valueOf value
    let v : Value := if v.kindV = .kPtr then v.elemV else v
    if field.kindV ≠ v.kindV then
      .error ("Cannot set field " ++ name ++ " with value of type " ++ v.kindV.str)
    else
      pure { s with structValue := s.structValue.setFieldByNameV name v }

/-- Source: func (s *Struct) SetFieldByIndex(index int, value interface). -/
def Struct.SetFieldByIndex (s : Struct) (index : Nat) (value : Value) : Except String Struct := do
  s.checkMade "Cannot set field if struct has not been made"
  let field ← s.structValue.fieldV index
  if !field.isValid then
    .error ("Field " ++ toString index ++ " does not exist")
  else
    let v : Value := valueOf value
    let v : Value := if v.kindV = .kPtr then v.elemV else v
    if field.kindV ≠ v.kindV then
      .error ("Cannot set field " ++ toString index ++ " with value of type " ++ v.kindV.str)
    else
      pure { s with structValue := s.structValue.setFieldAtV index v }

/-- Source: func (s *Struct) AddField(absolute_name, enc_name string, typeOf
reflect.Type, required ...bool). The variadic required parameter is a list;
Go reads required[0] when the list is nonempty. -/
def Struct.AddField (s : Struct) (absoluteName encName : String) (typeOf : GoType)
    (required : List Bool) : Except String Struct :=
  if absoluteName = "" then
    .error "Field name cannot be empty"
  else
    let encName := if encName = "" then absoluteName else encName
    if s.fieldsByName.any (fun f => f.name == absoluteName) then
      .error ("Field " ++ absoluteName ++ " already exists")
    else
      let tag : Tag :=
        [(s.tag, encName)] ++
          (if required.headD false then [("structs", "required")] else [])
      .ok { s with
            made := false,
            fieldsByName := s.fieldsByName ++
              [{ name := absoluteName, tag := tag, ty := typeOf,
                 anonymous := false, index := [] }] }

/-- Source: func (s *Struct) AddStructField(field reflect.StructField). -/
def Struct.AddStructField (s : Struct) (field : GField) : Except String Struct :=
  if field.name = "" then
    .error "Field name cannot be empty"
  else if s.fieldsByName.any (fun f => f.name == field.name) then
    .error ("Field " ++ field.name ++ " already exists")
  else if field.anonymous then
    .error "Cannot add anonymous field"
  else
    .ok { s with made := false, fieldsByName := s.fieldsByName ++ [field] }

/-- Source: func (s *Struct) GetField(name string) interface. The final
field.Interface() never panics here: synthesized fields are exported. -/
def Struct.GetField (s : Struct) (name : String) : Except String Value := do
  s.checkMade "Cannot get field if struct has not been made"
  let field ← s.structValue.fieldByNameV name
  if !field.isValid then
    .error ("Field " ++ name ++ " does not exist")
  else
    pure field

/-- Source: func (s *Struct) Make(): synthesizes the type when not made,
then always re-creates a fresh zero-valued instance. -/
def Struct.Make (s : Struct) : Except String Struct := do
  let s ←
    if !s.made then do
      let t ← structOf s.fieldsByName
      pure { s with sstruct := t, made := true }
    else
      pure s
  if s.made then
    pure { s with structValue := zeroValue s.sstruct }
  else
    pure s

/-- Source: func (s *Struct) Remake(). -/
def Struct.Remake (s : Struct) : Except String Struct :=
  Struct.Make { s with made := false }

/-- One iteration of the DeepCopy descriptor loop: newStruct.AddField with
the encoding name re-read from the source descriptor's tag and the required
marker re-derived by comparing the structs tag value with the literal
"required". -/
def deepCopyAddFields (tag : String) : Struct → List GField → Except String Struct
  | n, [] => pure n
  | n, f :: rest => do
    let n ← n.AddField f.name (f.tag.get tag) f.ty [f.tag.get "structs" == "required"]
    deepCopyAddFields tag n rest

/-- One iteration of the DeepCopy value loop, translated from the source:
both sides are located with FieldByIndex over the descriptor's Index (which
AddField always leaves empty, so the located value is the whole instance),
one pointer level is dereferenced on both sides, kinds are compared, CanSet
is checked, then the destination location is overwritten. -/
def deepCopyField (srcVal cur : Value) (f : GField) : Except String Value := do
  let nfv ← cur.fieldByIndexV f.index
  let deref := nfv.kindV = .kPtr
  let nfv : Value := if deref then nfv.elemV else nfv
  let sfv0 ← srcVal.fieldByIndexV f.index
  let sfv : Value := if sfv0.kindV = .kPtr then sfv0.elemV else sfv0
  if sfv.kindV ≠ nfv.kindV then
    .error ("Cannot deep copy field " ++ f.name ++ ", because the types are different")
  else if !canSetAt cur f.index deref then
    .error ("Cannot deep copy field " ++ f.name ++ ", because it cannot be set")
  else
    pure (writeAt cur f.index deref sfv)

/-- The DeepCopy value loop over all descriptors. -/
def deepCopyLoop (srcVal : Value) : Value → List GField → Except String Value
  | cur, [] => pure cur
  | cur, f :: rest => do
    let cur ← deepCopyField srcVal cur f
    deepCopyLoop srcVal cur rest

/-- Source: func (s *Struct) DeepCopy() *Struct. -/
def Struct.DeepCopy (s : Struct) : Except String Struct := do
  s.checkMade "Cannot deep copy if struct has not been made"
  let n0 := New s.tag
  let n1 ← deepCopyAddFields s.tag n0 s.fieldsByName
  let n2 ← n1.Make
  let sv ← deepCopyLoop s.structValue n2.structValue s.fieldsByName
  pure { n2 with structValue := sv }

/-- The field loop of scanInto over the source struct type's fields, carried
with the running field position and the destination pointee. CanSet of a
destination field reached by name from the addressable pointee is
exportedness of the name. -/
def scanLoop (srcVal : Value) (fields : List String) :
    GFields → Nat → Value → Except String Value
  | .nil, _, destElem => .ok destElem
  | .cons name _ _ _ _ rest, i, destElem =>
    if fields.length > 0 && !(fields.contains name) then
      scanLoop srcVal fields rest (i+1) destElem
    else do
      let value ← srcVal.fieldV i
      let destField ← destElem.fieldByNameV name
      if !destField.isValid then
        scanLoop srcVal fields rest (i+1) destElem
      else if !(isExported name) then
        scanLoop srcVal fields rest (i+1) destElem
      else do
        let dt ← destField.typeV
        let vt ← value.typeV
        if dt ≠ vt then
          scanLoop srcVal fields rest (i+1) destElem
        else
          scanLoop srcVal fields rest (i+1) (destElem.setFieldByNameV name value)

/-- Source: func scanInto(s, dest interface, fields ...string) error. The
outer Except layer carries panics (reflect calls on the zero Value, reached
through nil pointers), the inner one the function's recoverable error
return. On success the updated destination pointee is returned, standing for
the in-place mutation through the destination pointer. -/
def scanInto (s dest : Value) (fields : List String) : Except String (Except String Value) := do
  let typeOfSource0 ← s.typeV
  let typeOfDest ← dest.typeV
  let typeOfSource : GoType :=
    if typeOfSource0.kind = .kPtr then typeOfSource0.elemT else typeOfSource0
  let valueOfSource : Value :=
    if typeOfSource0.kind = .kPtr then s.elemV else s
  if typeOfSource.kind ≠ .kStruct then
    pure (Except.error "Source is not a struct")
  else if typeOfDest.kind ≠ .kPtr then
    pure (Except.error "Destination is not a pointer")
  else if typeOfDest.elemT.kind ≠ .kStruct then
    pure (Except.error "Destination is not a pointer to a struct")
  else
    match typeOfSource with
    | .tStruct gfs => do
      let valueOfDestElem := dest.elemV
      let r ← scanLoop valueOfSource fields gfs 0 valueOfDestElem
      pure (Except.ok r)
    | _ => pure (Except.error "Source is not a struct")

/-- An interface value passed to ScanInto: either a pointer to the builder
or any other value. -/
inductive ScanSource where
  | ofStruct (s : Struct)
  | ofValue (v : Value)

/-- Source: func ScanInto(s, dest interface, fields ...string) error. For a
builder source it first extracts the owned instance via Interface, whose
not-made check panics. -/
def ScanInto (src : ScanSource) (dest : Value) (fields : List String) :
    Except String (Except String Value) :=
  match src with
  | .ofStruct st => do
    let iFace ← st.InterfaceOp
    scanInto iFace dest fields
  | .ofValue v => scanInto v dest fields

/-- Source: func (s *Struct) MarshalJSON() ([]byte, error). The host JSON
encoder is not part of this repository and is taken as a parameter. -/
def Struct.MarshalJSON (s : Struct) (enc : Value → Except String String) :
    Except String (Except String String) := do
  s.checkMade "Cannot marshal if struct has not been made"
  pure (enc s.structValue)

/-- Source: func (s *Struct) UnmarshalJSON(data []byte) error. The host JSON
decoder is taken as a parameter; on success it rewrites the owned instance
in place. -/
def Struct.UnmarshalJSON (s : Struct) (dec : String → Value → Except String Value)
    (data : String) : Except String (Except String Struct) := do
  s.checkMade "Cannot unmarshal if struct has not been made"
  pure (match dec data s.structValue with
    | .ok v => .ok { s with structValue := v }
    | .error e => .error e)

/-- A validation callback: value to error or nil, as func(interface) error. -/
abbrev Validator := Value → Option String

/-- Source: type ValidatorMap map[string][]func(interface) error, modelled
extensionally by its lookup function. A deleted entry and an absent entry
are both the nil slice, over which Go ranges as the empty list, so every
operation of the source is preserved exactly. -/
abbrev ValidatorMap := String → List Validator

/-- The empty validator mapping: every key reads the nil slice. -/
def ValidatorMap.empty : ValidatorMap := fun _ => []

/-- Source: func (v ValidatorMap) Add: appends to the field's list. -/
def ValidatorMap.Add (m : ValidatorMap) (field : String) (validator : Validator) :
    ValidatorMap :=
  fun x => if x = field then m field ++ [validator] else m x

/-- Source: func (v ValidatorMap) Set: replaces the field's list with the
one-element list. -/
def ValidatorMap.SetV (m : ValidatorMap) (field : String) (validator : Validator) :
    ValidatorMap :=
  fun x => if x = field then [validator] else m x

/-- Source: func (v ValidatorMap) Remove: deletes the entry, after which the
field reads the nil slice. -/
def ValidatorMap.Remove (m : ValidatorMap) (field : String) : ValidatorMap :=
  fun x => if x = field then [] else m x

/-- The range loop of Validate: first non-nil error stops the walk. -/
def runValidators : List Validator → Value → Option String
  | [], _ => none
  | f :: rest, v =>
    match f v with
    | some e => some e
    | none => runValidators rest v

/-- Source: func (v ValidatorMap) Validate(field string, value interface)
error. -/
def ValidatorMap.Validate (m : ValidatorMap) (field : String) (value : Value) :
    Option String :=
  runValidators (m field) value

/-!
Helper lemmas shared by the claim theorems.
-/

theorem except_error_bind {α β : Type} (msg : String) (k : α → Except String β) :
    (Except.error msg >>= k : Except String β) = Except.error msg := rfl

theorem except_ok_bind {α β : Type} (a : α) (k : α → Except String β) :
    (Except.ok a >>= k : Except String β) = k a := rfl

theorem Struct.checkMade_notMade (s : Struct) (h : s.made = false) (msg : String) :
    s.checkMade msg = .error msg := by
  simp [Struct.checkMade, h]

theorem Struct.checkMade_made (s : Struct) (h : s.made = true) (msg : String) :
    s.checkMade msg = .ok () := by
  simp [Struct.checkMade, h]

theorem VFields.lookup_upd_self : ∀ (fs : VFields) (f : String) (old v : Value),
    fs.lookup f = some old → (fs.upd f v).lookup f = some v
  | .nil, f, old, v, h => by simp [VFields.lookup] at h
  | .cons n w rest, f, old, v, h => by
    by_cases hn : n = f
    · simp [VFields.lookup, VFields.upd, hn]
    · simp [VFields.lookup, VFields.upd, hn] at h ⊢
      exact VFields.lookup_upd_self rest f old v h

theorem VFields.lookup_upd_ne : ∀ (fs : VFields) (f m : String) (v : Value),
    m ≠ f → (fs.upd f v).lookup m = fs.lookup m
  | .nil, f, m, v, h => by simp [VFields.upd, VFields.lookup]
  | .cons n w rest, f, m, v, h => by
    by_cases hn : n = f
    · subst hn
      simp [VFields.upd, VFields.lookup, Ne.symm h,
        VFields.lookup_upd_ne rest n m v h]
    · by_cases hm : n = m
      · simp [VFields.upd, VFields.lookup, hn, hm, h]
      · simp [VFields.upd, VFields.lookup, hn, hm,
          VFields.lookup_upd_ne rest f m v h]

theorem Value.isValid_of_kind (v : Value) (h : v.kindV ≠ .kInvalid) :
    v.isValid = true := by
  cases v <;> simp_all [Value.kindV, Value.isValid]

/-!
Claim theorems.
-/

/-- C3: for every Struct whose built-flag is false, every read, accessor,
copy and encode operation (FieldByName, Field, GetField, SetField,
SetFieldByIndex, Interface, PtrTo, DeepCopy, MarshalJSON, UnmarshalJSON)
fails fatally with its not-built panic message. The operations are pure and
their only state channel is a returned builder, so the error branch carries
no new state: the builder is left unchanged. -/
theorem c3_not_built_ops_panic (s : Struct) (h : s.made = false) (name : String)
    (idx : Nat) (v : Value) (data : String) (enc : Value → Except String String)
    (dec : String → Value → Except String Value) :
    s.FieldByNameOp name = .error "Cannot get field by name if struct has not been made" ∧
    s.FieldOp idx = .error "Cannot get field by index if struct has not been made" ∧
    s.GetField name = .error "Cannot get field if struct has not been made" ∧
    s.SetField name v = .error "Cannot set field if struct has not been made" ∧
    s.SetFieldByIndex idx v = .error "Cannot set field if struct has not been made" ∧
    s.InterfaceOp = .error "Cannot get interface if struct has not been made" ∧
    s.PtrTo = .error "Cannot get pointer to if struct has not been made" ∧
    s.DeepCopy = .error "Cannot deep copy if struct has not been made" ∧
    s.MarshalJSON enc = .error "Cannot marshal if struct has not been made" ∧
    s.UnmarshalJSON dec data = .error "Cannot unmarshal if struct has not been made" := by
  refine ⟨?_, ?_, ?_, ?_, ?_, ?_, ?_, ?_, ?_, ?_⟩ <;>
    simp [Struct.FieldByNameOp, Struct.FieldOp, Struct.GetField, Struct.SetField,
      Struct.SetFieldByIndex, Struct.InterfaceOp, Struct.PtrTo, Struct.DeepCopy,
      Struct.MarshalJSON, Struct.UnmarshalJSON, Struct.checkMade_notMade s h,
      except_error_bind]

/-- Witness for c3_not_built_ops_panic at the freshly created builder. -/
theorem c3_not_built_ops_panic_witness :
    (New "json").made = false ∧
    (New "json").GetField "Name" = .error "Cannot get field if struct has not been made" := by
  refine ⟨rfl, ?_⟩
  exact (c3_not_built_ops_panic (New "json") rfl "Name" 0 (.vInt 1) ""
    (fun _ => .ok "") (fun _ v => .ok v)).2.2.1

/-- C6: AddField fails exactly when the internal name is empty or already
pending, regardless of the encoding name, type or required flag supplied; on
success it appends one descriptor whose encoding name (the builder's tag key
of the descriptor's tag) is the external name, or the internal name when the
external name is empty, and resets the built-flag. -/
theorem c6_addField_contract (s : Struct) (an en : String) (t : GoType)
    (req : List Bool) :
    ((∃ e, s.AddField an en t req = .error e) ↔
      an = "" ∨ an ∈ s.fieldsByName.map GField.name) ∧
    (an ≠ "" → an ∉ s.fieldsByName.map GField.name →
      ∃ f, s.AddField an en t req =
          .ok { s with made := false, fieldsByName := s.fieldsByName ++ [f] } ∧
        f.name = an ∧
        f.tag.get s.tag = (if en = "" then an else en)) := by
  constructor
  · constructor
    · intro ⟨e, he⟩
      by_cases han : an = ""
      · exact Or.inl han
      · right
        by_cases hdup : s.fieldsByName.any (fun f => f.name == an)
        · simp only [List.any_eq_true, beq_iff_eq] at hdup
          obtain ⟨f, hf, hfn⟩ := hdup
          exact List.mem_map.mpr ⟨f, hf, hfn⟩
        · simp [Struct.AddField, han, hdup] at he
    · intro hor
      rcases hor with han | hmem
      · exact ⟨"Field name cannot be empty", by simp [Struct.AddField, han]⟩
      · obtain ⟨f, hf, hfn⟩ := List.mem_map.mp hmem
        by_cases han : an = ""
        · exact ⟨"Field name cannot be empty", by simp [Struct.AddField, han]⟩
        · refine ⟨"Field " ++ an ++ " already exists", ?_⟩
          have hdup : s.fieldsByName.any (fun g => g.name == an) = true := by
            simp only [List.any_eq_true, beq_iff_eq]
            exact ⟨f, hf, hfn⟩
          simp [Struct.AddField, han, hdup]
  · intro han hmem
    have hdup : s.fieldsByName.any (fun g => g.name == an) = false := by
      simp only [List.any_eq_false, beq_iff_eq]
      intro f hf hfn
      exact hmem (List.mem_map.mpr ⟨f, hf, hfn⟩)
    refine ⟨{ name := an,
              tag := (s.tag, if en = "" then an else en) ::
                (if req.headD false then [("structs", "required")] else []),
              ty := t, anonymous := false, index := [] }, ?_, rfl, ?_⟩
    · simp [Struct.AddField, han, hdup]
    · simp [Tag.get]

/-- Witness for c6_addField_contract: a fresh builder accepts a first field
and the success conjunct applies with its hypotheses discharged. -/
theorem c6_addField_contract_witness :
    ("Name" : String) ≠ "" ∧ "Name" ∉ (New "json").fieldsByName.map GField.name ∧
    ∃ f, (New "json").AddField "Name" "name" .tString [] =
        .ok { New "json" with
              made := false,
              fieldsByName := (New "json").fieldsByName ++ [f] } ∧
      f.name = "Name" ∧
      f.tag.get (New "json").tag = (if ("name" : String) = "" then "Name" else "name") := by
  refine ⟨by decide, by simp [New], ?_⟩
  exact (c6_addField_contract (New "json") "Name" "name" .tString []).2
    (by decide) (by simp [New])

/-- C9: Validate runs the field's validators in insertion order and yields
the first failure, independent of every validator after it; it yields no
error for an empty or removed list or when all validators pass; Add appends
to the field's list and SetV replaces the whole list with the one given. -/
theorem c9_validator_map (m : ValidatorMap) (f : String) (v : Value)
    (fn : Validator) (vs ws : List Validator) (e : String) :
    (m f = vs ++ fn :: ws → runValidators vs v = none → fn v = some e →
      m.Validate f v = some e) ∧
    ((∀ g ∈ m f, g v = none) → m.Validate f v = none) ∧
    ((m.Remove f).Validate f v = none) ∧
    ((m.Add f fn) f = m f ++ [fn]) ∧
    ((m.SetV f fn) f = [fn]) := by
  have happ : ∀ (l l' : List Validator), runValidators l v = none →
      runValidators (l ++ l') v = runValidators l' v := by
    intro l l' hl
    induction l with
    | nil => simp
    | cons g rest ih =>
      simp only [runValidators] at hl ⊢
      cases hg : g v with
      | none => simp [hg] at hl ⊢; exact ih hl
      | some e' => simp [hg] at hl
  refine ⟨?_, ?_, ?_, ?_, ?_⟩
  · intro hm hvs hfn
    simp only [ValidatorMap.Validate, hm]
    rw [happ vs (fn :: ws) hvs]
    simp [runValidators, hfn]
  · intro hall
    simp only [ValidatorMap.Validate]
    have hnone : ∀ (l : List Validator), (∀ g ∈ l, g v = none) →
        runValidators l v = none := by
      intro l
      induction l with
      | nil => intro _; simp [runValidators]
      | cons g rest ih =>
        intro hl
        have hg : g v = none := hl g (List.mem_cons_self _ _)
        simp [runValidators, hg]
        exact ih (fun x hx => hl x (List.mem_cons_of_mem _ hx))
    exact hnone (m f) hall
  · simp [ValidatorMap.Validate, ValidatorMap.Remove, runValidators]
  · simp [ValidatorMap.Add]
  · simp [ValidatorMap.SetV]

/-- Witness for c9_validator_map: a two-validator field where the first
validator fails, applied through the theorem's first conjunct. -/
theorem c9_validator_map_witness :
    ((ValidatorMap.empty.Add "Age" (fun _ => some "bad")).Add "Age" (fun _ => none))
        "Age" = [] ++ (fun _ => some "bad") :: [fun _ => none] ∧
    runValidators [] (.vInt 3) = none ∧
    (fun _ => some "bad") (Value.vInt 3) = some "bad" ∧
    ((ValidatorMap.empty.Add "Age" (fun _ => some "bad")).Add "Age"
      (fun _ => none)).Validate "Age" (.vInt 3) = some "bad" := by
  refine ⟨by simp [ValidatorMap.Add, ValidatorMap.empty], rfl, rfl, ?_⟩
  exact (c9_validator_map
      ((ValidatorMap.empty.Add "Age" (fun _ => some "bad")).Add "Age" (fun _ => none))
      "Age" (.vInt 3) (fun _ => some "bad") [] [fun _ => none] "bad").1
    (by simp [ValidatorMap.Add, ValidatorMap.empty]) rfl rfl

/-- C10: passing a not-built builder as the source of ScanInto panics with
the not-built message from Interface instead of returning one of scanInto's
recoverable structural errors. -/
theorem c10_scanInto_not_built (st : Struct) (h : st.made = false) (dest : Value)
    (fields : List String) :
    ScanInto (.ofStruct st) dest fields =
      .error "Cannot get interface if struct has not been made" ∧
    ∀ r : Except String Value, ScanInto (.ofStruct st) dest fields ≠ .ok r := by
  have hmain : ScanInto (.ofStruct st) dest fields =
      .error "Cannot get interface if struct has not been made" := by
    simp [ScanInto, Struct.InterfaceOp, Struct.checkMade_notMade st h,
      except_error_bind]
  exact ⟨hmain, fun r hr => by rw [hmain] at hr; exact Except.noConfusion hr⟩

/-- Witness for c10_scanInto_not_built at a fresh builder. -/
theorem c10_scanInto_not_built_witness :
    (New "json").made = false ∧
    ScanInto (.ofStruct (New "json")) (.vInt 0) [] =
      .error "Cannot get interface if struct has not been made" := by
  exact ⟨rfl, (c10_scanInto_not_built (New "json") rfl (.vInt 0) []).1⟩

theorem Value.kindV_vPtr (t : GoType) (p : VPtrVal) :
    (Value.vPtr t p).kindV = .kPtr := rfl

theorem Value.elemV_somev (t : GoType) (v : Value) :
    (Value.vPtr t (.somev v)).elemV = v := rfl

/-- C5: on a built Struct with a field of primitive declared kind (string,
int, float64, bool), SetField with a value of that kind followed by GetField
returns exactly that value. The stored field value carries the declared kind
of the field, as every value placed by Make or SetField does. -/
theorem c5_set_get_roundtrip (s : Struct) (t : GoType) (fs : VFields)
    (f : String) (old v : Value) (k : GoKind)
    (hmade : s.made = true) (hsv : s.structValue = .vStruct t fs)
    (hfield : fs.lookup f = some old)
    (hok : old.kindV = k) (hvk : v.kindV = k)
    (hprim : k = .kString ∨ k = .kInt ∨ k = .kFloat64 ∨ k = .kBool) :
    ∃ s', s.SetField f v = .ok s' ∧ s'.GetField f = .ok v := by
  have hkptr : k ≠ .kPtr := by rcases hprim with h | h | h | h <;> subst h <;> decide
  have hkinv : k ≠ .kInvalid := by rcases hprim with h | h | h | h <;> subst h <;> decide
  have holdvalid : old.isValid = true := Value.isValid_of_kind old (hok ▸ hkinv)
  have hvvalid : v.isValid = true := Value.isValid_of_kind v (hvk ▸ hkinv)
  have hvptr : v.kindV ≠ .kPtr := by rw [hvk]; exact hkptr
  refine ⟨{ s with structValue := .vStruct t (fs.upd f v) }, ?_, ?_⟩
  · simp [Struct.SetField, Struct.checkMade_made s hmade, except_ok_bind, hsv,
      Value.fieldByNameV, hfield, holdvalid, valueOf, hvptr, hvk, hok, hkptr,
      Value.setFieldByNameV]
  · simp [Struct.GetField, Struct.checkMade, hmade, except_ok_bind,
      Value.fieldByNameV, VFields.lookup_upd_self fs f old v hfield, hvvalid]

/-- Concrete one-field builder for the C5 and C7 witnesses. -/
def wT : GoType := .tStruct (.cons "Age" [("json", "age")] .tInt false [0] .nil)

/-- Concrete built builder for the C5 and C7 witnesses, as produced by
AddField of an Age int field followed by Make. -/
def wS : Struct :=
  { tag := "json",
    fieldsByName := [⟨"Age", [("json", "age")], .tInt, false, []⟩],
    sstruct := wT, structValue := .vStruct wT (.cons "Age" (.vInt 0) .nil),
    made := true }

/-- Witness for c5_set_get_roundtrip on the built one-field builder. -/
theorem c5_set_get_roundtrip_witness :
    wS.made = true ∧ wS.structValue = .vStruct wT (.cons "Age" (.vInt 0) .nil) ∧
    ∃ s', wS.SetField "Age" (.vInt 23) = .ok s' ∧
      s'.GetField "Age" = .ok (.vInt 23) := by
  refine ⟨rfl, rfl, ?_⟩
  exact c5_set_get_roundtrip wS wT (.cons "Age" (.vInt 0) .nil) "Age"
    (.vInt 0) (.vInt 23) .kInt rfl rfl rfl rfl rfl (Or.inr (Or.inl rfl))

/-- C7: on a built Struct, SetField fails when the field does not exist; a
pointer value is dereferenced exactly one level before the kind comparison,
so a pointer to a value of the field's kind is stored dereferenced, while a
doubly indirect pointer to a non-pointer field always fails the kind check;
on success only the owned instance changes, in place. -/
theorem c7_setField_kind_rules (s : Struct) (t : GoType) (fs : VFields)
    (name : String) (v : Value)
    (hmade : s.made = true) (hsv : s.structValue = .vStruct t fs) :
    (fs.lookup name = none →
      s.SetField name v = .error ("Field " ++ name ++ " does not exist")) ∧
    (∀ old k pt p, fs.lookup name = some old → old.kindV = k → k ≠ .kPtr →
      k ≠ .kInvalid → p.kindV = k →
      s.SetField name (.vPtr pt (.somev p)) =
        .ok { s with structValue := .vStruct t (fs.upd name p) }) ∧
    (∀ old k pt pt2 q, fs.lookup name = some old → old.kindV = k → k ≠ .kPtr →
      ∃ e, s.SetField name (.vPtr pt (.somev (.vPtr pt2 q))) = .error e) ∧
    (∀ old k, fs.lookup name = some old → old.kindV = k → k ≠ .kPtr →
      k ≠ .kInvalid → v.kindV = k →
      s.SetField name v =
        .ok { s with structValue := .vStruct t (fs.upd name v) }) := by
  refine ⟨?_, ?_, ?_, ?_⟩
  · intro hnone
    simp [Struct.SetField, Struct.checkMade_made s hmade, except_ok_bind, hsv,
      Value.fieldByNameV, hnone, Value.isValid]
  · intro old k pt p hfield hok hkptr hkinv hpk
    have holdvalid : old.isValid = true := Value.isValid_of_kind old (hok ▸ hkinv)
    simp [Struct.SetField, Struct.checkMade_made s hmade, except_ok_bind, hsv,
      Value.fieldByNameV, hfield, holdvalid, valueOf, Value.kindV_vPtr,
      Value.elemV_somev, hpk, hok, hkptr, Value.setFieldByNameV]
  · intro old k pt pt2 q hfield hok hkptr
    by_cases hkinv : k = .kInvalid
    · have : old.isValid = false := by
        cases old <;> simp_all [Value.kindV, Value.isValid]
      refine ⟨"Field " ++ name ++ " does not exist", ?_⟩
      simp [Struct.SetField, Struct.checkMade_made s hmade, except_ok_bind, hsv,
        Value.fieldByNameV, hfield, this]
    · have holdvalid : old.isValid = true := Value.isValid_of_kind old (hok ▸ hkinv)
      refine ⟨"Cannot set field " ++ name ++ " with value of type " ++
        GoKind.str .kPtr, ?_⟩
      simp [Struct.SetField, Struct.checkMade_made s hmade, except_ok_bind, hsv,
        Value.fieldByNameV, hfield, holdvalid, valueOf, Value.kindV_vPtr,
        Value.elemV_somev, hok, hkptr]
  · intro old k hfield hok hkptr hkinv hvk
    have holdvalid : old.isValid = true := Value.isValid_of_kind old (hok ▸ hkinv)
    have hvptr : v.kindV ≠ .kPtr := by rw [hvk]; exact hkptr
    simp [Struct.SetField, Struct.checkMade_made s hmade, except_ok_bind, hsv,
      Value.fieldByNameV, hfield, holdvalid, valueOf, hvptr, hvk, hok, hkptr,
      Value.setFieldByNameV]

/-- Witness for c7_setField_kind_rules: missing-field failure, single-level
dereference success, and double-indirection failure on the built one-field
builder, all through the theorem. -/
theorem c7_setField_kind_rules_witness :
    wS.SetField "Missing" (.vInt 1) = .error "Field Missing does not exist" ∧
    wS.SetField "Age" (.vPtr .tInt (.somev (.vInt 5))) =
      .ok { wS with structValue := .vStruct wT (.cons "Age" (.vInt 5) .nil) } ∧
    ∃ e, wS.SetField "Age" (.vPtr (.tPtr .tInt)
        (.somev (.vPtr .tInt (.somev (.vInt 5))))) = .error e := by
  refine ⟨?_, ?_, ?_⟩
  · exact (c7_setField_kind_rules wS wT (.cons "Age" (.vInt 0) .nil) "Missing"
      (.vInt 1) rfl rfl).1 rfl
  · exact (c7_setField_kind_rules wS wT (.cons "Age" (.vInt 0) .nil) "Age"
      (.vInt 1) rfl rfl).2.1 (.vInt 0) .kInt .tInt (.vInt 5) rfl rfl
      (by decide) (by decide) rfl
  · exact (c7_setField_kind_rules wS wT (.cons "Age" (.vInt 0) .nil) "Age"
      (.vInt 1) rfl rfl).2.2.1 (.vInt 0) .kInt (.tPtr .tInt) .tInt
      (.somev (.vInt 5)) rfl rfl (by decide)

/-- The pending builder reached by AddField of an unexported field name age,
used as the C8 counterexample input. -/
def c8Builder : Struct :=
  { tag := "json",
    fieldsByName := [⟨"age", [("json", "age")], .tInt, false, []⟩],
    sstruct := .tStruct .nil, structValue := .vInvalid, made := false }

/-- C8 counterexample: AddField accepts the unexported field name age, but
Make then panics inside reflect.StructOf instead of leaving the builder
built with a fresh zero-valued instance, refuting the claim for this
builder. -/
theorem c8_make_counterexample :
    (New "json").AddField "age" "age" .tInt [] = .ok c8Builder ∧
    c8Builder.Make = .error "reflect.StructOf: field is unexported but missing PkgPath" ∧
    ∀ s1 : Struct, c8Builder.Make ≠ .ok s1 := by
  refine ⟨rfl, rfl, ?_⟩
  intro s1 hs1
  rw [show c8Builder.Make =
    .error "reflect.StructOf: field is unexported but missing PkgPath" from rfl] at hs1
  exact Except.noConfusion hs1

/-- C8 amended: every call to Make on a builder that is already built, or
whose pending field names are all exported and mutually distinct (as any
builder that ever built successfully is), leaves the builder built with a
fresh zero-valued instance of the current materialized type; an immediately
repeated call with no fields added in between, whatever values were set,
keeps the materialized type (no re-synthesis) and resets the instance to
zero values. -/
theorem c8_make_amended (s : Struct)
    (h : s.made = true ∨
      (s.fieldsByName.all (fun f => isExported f.name) = true ∧
        hasDupNames s.fieldsByName = false)) :
    ∃ s1, s.Make = .ok s1 ∧ s1.made = true ∧
      s1.structValue = zeroValue s1.sstruct ∧
      s1.fieldsByName = s.fieldsByName ∧ s1.tag = s.tag ∧
      (s.made = true → s1.sstruct = s.sstruct) ∧
      ∀ v2 : Value, Struct.Make { s1 with structValue := v2 } =
        .ok { s1 with structValue := zeroValue s1.sstruct } := by
  by_cases hm : s.made = true
  · refine ⟨{ s with structValue := zeroValue s.sstruct }, ?_, hm, rfl, rfl, rfl,
      fun _ => rfl, fun v2 => ?_⟩
    · simp [Struct.Make, hm, pure, Except.pure, bind, Except.bind]
    · simp [Struct.Make, hm, pure, Except.pure, bind, Except.bind]
  · have hr := h.resolve_left hm
    have hmf : s.made = false := by simpa using hm
    have hexp : (s.fieldsByName.any fun f => !isExported f.name) = false := by
      simp only [List.any_eq_false]
      intro f hf
      simp [List.all_eq_true.mp hr.1 f hf]
    have hso : structOf s.fieldsByName =
        .ok (.tStruct (GFields.ofList
          (s.fieldsByName.enum.map (fun p => { p.2 with index := [p.1] })))) := by
      simp [structOf, hexp, hr.2]
    refine ⟨{ s with
        sstruct := .tStruct (GFields.ofList
          (s.fieldsByName.enum.map (fun p => { p.2 with index := [p.1] }))),
        made := true,
        structValue := zeroValue (.tStruct (GFields.ofList
          (s.fieldsByName.enum.map (fun p => { p.2 with index := [p.1] })))) },
      ?_, rfl, rfl, rfl, rfl, fun hmt => absurd hmt hm, fun v2 => ?_⟩
    · simp [Struct.Make, hmf, hso, except_ok_bind, pure, Except.pure, bind,
        Except.bind]
    · simp [Struct.Make, pure, Except.pure, bind, Except.bind]

/-- Witness for c8_make_amended at the built one-field builder. -/
theorem c8_make_amended_witness :
    (wS.made = true ∨
      (wS.fieldsByName.all (fun f => isExported f.name) = true ∧
        hasDupNames wS.fieldsByName = false)) ∧
    ∃ s1, wS.Make = .ok s1 ∧ s1.made = true ∧
      s1.structValue = zeroValue s1.sstruct ∧
      s1.fieldsByName = wS.fieldsByName ∧ s1.tag = wS.tag ∧
      (wS.made = true → s1.sstruct = wS.sstruct) ∧
      ∀ v2 : Value, Struct.Make { s1 with structValue := v2 } =
        .ok { s1 with structValue := zeroValue s1.sstruct } := by
  exact ⟨Or.inl rfl, c8_make_amended wS (Or.inl rfl)⟩

/-- The synthesized type of the C1 scenario: one slice-of-int field Data. -/
def c1T : GoType :=
  .tStruct (.cons "Data" [("json", "data")] (.tSlice .tInt) false [0] .nil)

/-- The built C1 builder after setting Data to a one-element int slice whose
backing store is heap cell 0. -/
def c1Built : Struct :=
  { tag := "json",
    fieldsByName := [⟨"Data", [("json", "data")], .tSlice .tInt, false, []⟩],
    sstruct := c1T,
    structValue := .vStruct c1T (.cons "Data" (.vSlice .tInt (some 0)) .nil),
    made := true }

/-- The heap of the C1 scenario: cell 0 is the slice backing store holding
the single element 1. -/
def c1Heap : Heap := ⟨[[.vInt 1]], []⟩

/-- C1: DeepCopy does not deeply copy slice fields. The builder below is
reached through New, AddField, Make, SetField; its deep copy is literally
identical to the source, including the slice field's reference into the
backing store, because the copy loop transfers slice fields by header
assignment. Writing element 0 of the shared cell in place, as Go code
reaching the slice through the copy's GetField would, changes the element
that the source's Data field denotes from 1 to 2 - refuting the claimed
full independence of copy and source for slice fields. -/
theorem c1_deepCopy_shares_slice_backing :
    (do
      let s1 ← (New "json").AddField "Data" "data" (.tSlice .tInt) []
      let s2 ← s1.Make
      s2.SetField "Data" (.vSlice .tInt (some 0))) = .ok c1Built ∧
    c1Built.DeepCopy = .ok c1Built ∧
    c1Built.GetField "Data" = .ok (.vSlice .tInt (some 0)) ∧
    sliceElem c1Heap (.vSlice .tInt (some 0)) 0 = some (.vInt 1) ∧
    sliceElem (c1Heap.sliceSetIndex 0 0 (.vInt 2)) (.vSlice .tInt (some 0)) 0 =
      some (.vInt 2) := by
  refine ⟨rfl, rfl, rfl, rfl, rfl⟩

/-- The pending builder holding one AddStructField descriptor whose structs
tag value contains required without being exactly required, the C2
counterexample input. -/
def c2Builder : Struct :=
  { tag := "json",
    fieldsByName := [⟨"A", [("structs", "required,x")], .tInt, false, []⟩],
    sstruct := .tStruct .nil, structValue := .vInvalid, made := false }

/-- The C2 counterexample builder after Make. -/
def c2Built : Struct :=
  { tag := "json",
    fieldsByName := [⟨"A", [("structs", "required,x")], .tInt, false, []⟩],
    sstruct := .tStruct (.cons "A" [("structs", "required,x")] .tInt false [0] .nil),
    structValue := .vStruct
      (.tStruct (.cons "A" [("structs", "required,x")] .tInt false [0] .nil))
      (.cons "A" (.vInt 0) .nil),
    made := true }

/-- C2 counterexample: a built Struct whose only field carries the tag
structs:"required,x" has the required marker (IsRequired is a substring
test), but DeepCopy re-derives the marker by comparing the tag value with
the literal required, so the copy's descriptor loses the marker: the
descriptors of the copy do not all have the same required markers. -/
theorem c2_deepCopy_required_counterexample :
    (New "json").AddStructField ⟨"A", [("structs", "required,x")], .tInt, false, []⟩ =
      .ok c2Builder ∧
    c2Builder.Make = .ok c2Built ∧
    c2Built.fieldsByName.map IsRequired = [true] ∧
    ∃ c, c2Built.DeepCopy = .ok c ∧
      c.fieldsByName.map GField.name = ["A"] ∧
      c.fieldsByName.map IsRequired = [false] := by
  exact ⟨rfl, rfl, rfl, ⟨_, rfl, rfl, rfl⟩⟩

/-- Effective encoding name of a descriptor under a tag key: the tag value,
or the internal name when the tag value is empty, exactly the defaulting
AddField applies. -/
def effEncName (tagKey : String) (f : GField) : String :=
  if f.tag.get tagKey = "" then f.name else f.tag.get tagKey

/-- The descriptor DeepCopy's first loop appends for a source descriptor:
AddField with the re-read encoding name and the re-derived required flag. -/
def deepCopyDescr (tagKey : String) (f : GField) : GField :=
  { name := f.name,
    tag := (tagKey, effEncName tagKey f) ::
      (if f.tag.get "structs" == "required" then [("structs", "required")] else []),
    ty := f.ty, anonymous := false, index := [] }

theorem isExported_ne_empty (n : String) (h : isExported n = true) : n ≠ "" := by
  intro he
  subst he
  simp [isExported] at h

theorem deepCopyDescr_name (tk : String) (f : GField) :
    (deepCopyDescr tk f).name = f.name := rfl

theorem deepCopyDescr_effEncName (tk : String) (f : GField) (hn : f.name ≠ "") :
    effEncName tk (deepCopyDescr tk f) = effEncName tk f := by
  by_cases hg : f.tag.get tk = "" <;>
    simp [effEncName, deepCopyDescr, Tag.get, hg, hn]

theorem deepCopyDescr_isRequired (tk : String) (f : GField) (htk : tk ≠ "structs")
    (hreqf : f.tag.get "structs" = "required" ∨
      strContains (f.tag.get "structs") "required" = false) :
    IsRequired (deepCopyDescr tk f) = IsRequired f := by
  have hcontains : strContains "required" "required" = true := by decide
  have hempty : strContains "" "required" = false := by decide
  rcases hreqf with hl | hr
  · simp [IsRequired, deepCopyDescr, Tag.get, htk, hl, hcontains]
  · have hb : f.tag.get "structs" ≠ "required" := by
      intro hb
      rw [hb, hcontains] at hr
      exact Bool.noConfusion hr
    simp [IsRequired, deepCopyDescr, Tag.get, htk, hb, hempty, hr]

theorem hasDupNames_map_name_preserving (d : GField → GField)
    (hd : ∀ f, (d f).name = f.name) (l : List GField) :
    hasDupNames (l.map d) = hasDupNames l := by
  induction l with
  | nil => rfl
  | cons f rest ih =>
    have hpt : ∀ (m : List GField),
        (m.any fun g => (d g).name == (d f).name) =
          (m.any fun g => g.name == f.name) := by
      intro m
      induction m with
      | nil => rfl
      | cons a r ihr => simp [List.any_cons, hd, ihr]
    simp only [List.map_cons, hasDupNames, List.any_map, Function.comp, ih]
    rw [show ((fun g => g.name == (d f).name) ∘ d) =
      (fun g => (d g).name == (d f).name) from rfl, hpt]

/-- The descriptor loop of DeepCopy succeeds on a list of uniquely named,
nonempty-named source descriptors not clashing with the accumulator, and
appends exactly the transformed descriptors, resetting the built-flag. -/
theorem deepCopyAddFields_ok (tk : String) :
    ∀ (l : List GField) (n : Struct), n.tag = tk →
      (∀ f ∈ l, f.name ≠ "") →
      hasDupNames l = false →
      (∀ f ∈ l, ∀ g ∈ n.fieldsByName, g.name ≠ f.name) →
      ∃ n', deepCopyAddFields tk n l = .ok n' ∧
        n'.fieldsByName = n.fieldsByName ++ l.map (deepCopyDescr tk) ∧
        n'.tag = n.tag ∧ n'.sstruct = n.sstruct ∧
        n'.structValue = n.structValue ∧
        n'.made = (n.made && l.isEmpty) := by
  intro l
  induction l with
  | nil =>
    intro n _ _ _ _
    exact ⟨n, rfl, by simp, rfl, rfl, rfl, by simp⟩
  | cons f rest ih =>
    intro n htag hne hdup hfresh
    have hfname : f.name ≠ "" := hne f (List.mem_cons_self _ _)
    have hany : (n.fieldsByName.any fun g => g.name == f.name) = false := by
      simp only [List.any_eq_false, beq_iff_eq]
      intro g hg
      exact hfresh f (List.mem_cons_self _ _) g hg
    have hdup' : (rest.any fun g => g.name == f.name) = false ∧
        hasDupNames rest = false := by
      simpa [hasDupNames] using hdup
    have hAdd : n.AddField f.name (f.tag.get tk) f.ty
        [f.tag.get "structs" == "required"] =
        .ok { n with
              made := false,
              fieldsByName := n.fieldsByName ++ [deepCopyDescr tk f] } := by
      subst htag
      simp [Struct.AddField, hfname, hany, deepCopyDescr, effEncName]
    have hfresh' : ∀ g ∈ rest,
        ∀ g' ∈ n.fieldsByName ++ [deepCopyDescr tk f], g'.name ≠ g.name := by
      intro g hg g' hg'
      rcases List.mem_append.mp hg' with hmem | hmem
      · exact hfresh g (List.mem_cons_of_mem _ hg) g' hmem
      · have heq : g' = deepCopyDescr tk f := by simpa using hmem
        subst heq
        rw [deepCopyDescr_name]
        intro hc
        have := List.any_eq_false.mp hdup'.1 g hg
        simp [hc] at this
    obtain ⟨n', hrun, hfields, htg, hss, hsv, hmd⟩ := ih
      { n with
        made := false,
        fieldsByName := n.fieldsByName ++ [deepCopyDescr tk f] }
      htag (fun g hg => hne g (List.mem_cons_of_mem _ hg)) hdup'.2 hfresh'
    refine ⟨n', ?_, ?_, htg, hss, hsv, ?_⟩
    · simp only [deepCopyAddFields, hAdd, except_ok_bind]
      exact hrun
    · simp only [hfields]
      simp [List.append_assoc]
    · simp [hmd]

theorem Value.kindV_vStruct (t : GoType) (fs : VFields) :
    (Value.vStruct t fs).kindV = .kStruct := rfl

/-- The value loop of DeepCopy over descriptors with empty Index lists, as
AddField produces: each iteration locates both whole instances with
FieldByIndex of the empty path and overwrites the destination instance with
the source instance, so the final instance is the source instance itself
whenever at least one descriptor exists. -/
theorem deepCopyLoop_through (t : GoType) (fs : VFields) :
    ∀ (l : List GField) (tc : GoType) (fc : VFields),
      (∀ f ∈ l, f.index = []) →
      deepCopyLoop (.vStruct t fs) (.vStruct tc fc) l =
        .ok (if l.isEmpty then .vStruct tc fc else .vStruct t fs) := by
  intro l
  induction l with
  | nil => intro tc fc _; rfl
  | cons f rest ih =>
    intro tc fc hidx
    have hf : f.index = [] := hidx f (List.mem_cons_self _ _)
    have hstep : deepCopyField (.vStruct t fs) (.vStruct tc fc) f =
        .ok (.vStruct t fs) := by
      simp [deepCopyField, hf, Value.fieldByIndexV, Value.kindV_vStruct,
        canSetAt, canSetWalk, Value.isValid, writeAt, writeAtEnd,
        except_ok_bind, pure, Except.pure]
    simp only [deepCopyLoop, hstep, except_ok_bind]
    rw [ih t fs (fun g hg => hidx g (List.mem_cons_of_mem _ hg))]
    simp [pure, Except.pure]

theorem except_map_ok {α β : Type} (f : α → β) (a : α) :
    (f <$> Except.ok a : Except String β) = .ok (f a) := rfl

/-- C2 amended: for every built Struct assembled through the field-adding
API (descriptors with exported, mutually distinct names and empty Index
lists), whose encoding tag is not the reserved structs key, and whose
descriptors each carry a structs tag value that is exactly required or does
not contain required at all (AddField only ever produces these), DeepCopy
yields a built Struct whose ordered descriptors have the same internal
names, the same effective encoding names, and the same required markers.
A descriptor whose structs tag value merely contains required (reachable
only through AddStructField) loses its marker in the copy, as the
counterexample shows. -/
theorem c2_deepCopy_preserves_descriptors (s : Struct) (t : GoType) (fs : VFields)
    (hmade : s.made = true) (hsv : s.structValue = .vStruct t fs)
    (htag : s.tag ≠ "structs")
    (hexp : ∀ f ∈ s.fieldsByName, isExported f.name = true)
    (hdup : hasDupNames s.fieldsByName = false)
    (hidx : ∀ f ∈ s.fieldsByName, f.index = [])
    (hreq : ∀ f ∈ s.fieldsByName, f.tag.get "structs" = "required" ∨
      strContains (f.tag.get "structs") "required" = false) :
    ∃ c, s.DeepCopy = .ok c ∧ c.made = true ∧
      c.fieldsByName.map GField.name = s.fieldsByName.map GField.name ∧
      c.fieldsByName.map (effEncName s.tag) =
        s.fieldsByName.map (effEncName s.tag) ∧
      c.fieldsByName.map IsRequired = s.fieldsByName.map IsRequired := by
  have hne : ∀ f ∈ s.fieldsByName, f.name ≠ "" :=
    fun f hf => isExported_ne_empty _ (hexp f hf)
  obtain ⟨n1, hfold, hfields1, htag1, hss1, hsv1, hmd1⟩ :=
    deepCopyAddFields_ok s.tag s.fieldsByName (New s.tag) rfl hne hdup
      (by simp [New])
  have hn1fields : n1.fieldsByName = s.fieldsByName.map (deepCopyDescr s.tag) := by
    simpa [New] using hfields1
  have hn1made : n1.made = false := by simp [hmd1, New]
  have hexp1 : (n1.fieldsByName.any fun f => !isExported f.name) = false := by
    rw [hn1fields]
    simp only [List.any_map, List.any_eq_false]
    intro f hf
    simp [Function.comp, deepCopyDescr, hexp f hf]
  have hdup1 : hasDupNames n1.fieldsByName = false := by
    rw [hn1fields,
      hasDupNames_map_name_preserving (deepCopyDescr s.tag) (fun _ => rfl)]
    exact hdup
  have hso : structOf n1.fieldsByName =
      .ok (.tStruct (GFields.ofList
        (n1.fieldsByName.enum.map (fun p => { p.2 with index := [p.1] })))) := by
    simp [structOf, hexp1, hdup1]
  have hmake : n1.Make =
      .ok { n1 with
            sstruct := .tStruct (GFields.ofList
              (n1.fieldsByName.enum.map (fun p => { p.2 with index := [p.1] }))),
            made := true,
            structValue := zeroValue (.tStruct (GFields.ofList
              (n1.fieldsByName.enum.map (fun p => { p.2 with index := [p.1] })))) } := by
    simp [Struct.Make, hn1made, hso, bind, Except.bind, pure, Except.pure]
  have hloop := deepCopyLoop_through t fs s.fieldsByName
    (.tStruct (GFields.ofList
      (n1.fieldsByName.enum.map (fun p => { p.2 with index := [p.1] }))))
    (zeroFields (GFields.ofList
      (n1.fieldsByName.enum.map (fun p => { p.2 with index := [p.1] }))))
    hidx
  have hdc : s.DeepCopy =
      .ok { n1 with
            sstruct := .tStruct (GFields.ofList
              (n1.fieldsByName.enum.map (fun p => { p.2 with index := [p.1] }))),
            made := true,
            structValue := (if s.fieldsByName.isEmpty
              then .vStruct
                (.tStruct (GFields.ofList
                  (n1.fieldsByName.enum.map (fun p => { p.2 with index := [p.1] }))))
                (zeroFields (GFields.ofList
                  (n1.fieldsByName.enum.map (fun p => { p.2 with index := [p.1] }))))
              else .vStruct t fs) } := by
    simp only [Struct.DeepCopy, Struct.checkMade_made s hmade, except_ok_bind,
      hfold, hmake, hsv]
    rw [show zeroValue (.tStruct (GFields.ofList
        (n1.fieldsByName.enum.map (fun p => { p.2 with index := [p.1] })))) =
      .vStruct (.tStruct (GFields.ofList
        (n1.fieldsByName.enum.map (fun p => { p.2 with index := [p.1] }))))
        (zeroFields (GFields.ofList
          (n1.fieldsByName.enum.map (fun p => { p.2 with index := [p.1] }))))
      from rfl]
    rw [hloop]
    rfl
  refine ⟨_, hdc, rfl, ?_, ?_, ?_⟩
  · rw [hn1fields, List.map_map]
    rfl
  · rw [hn1fields, List.map_map]
    exact List.map_congr_left
      (fun f hf => deepCopyDescr_effEncName s.tag f (hne f hf))
  · rw [hn1fields, List.map_map]
    exact List.map_congr_left
      (fun f hf => deepCopyDescr_isRequired s.tag f htag (hreq f hf))

/-- Witness for c2_deepCopy_preserves_descriptors at the built one-field
builder. -/
theorem c2_deepCopy_preserves_descriptors_witness :
    wS.made = true ∧ ("json" : String) ≠ "structs" ∧
    ∃ c, wS.DeepCopy = .ok c ∧ c.made = true ∧
      c.fieldsByName.map GField.name = wS.fieldsByName.map GField.name ∧
      c.fieldsByName.map (effEncName wS.tag) =
        wS.fieldsByName.map (effEncName wS.tag) ∧
      c.fieldsByName.map IsRequired = wS.fieldsByName.map IsRequired := by
  refine ⟨rfl, by decide, ?_⟩
  exact c2_deepCopy_preserves_descriptors wS wT (.cons "Age" (.vInt 0) .nil)
    rfl rfl (by decide)
    (by intro f hf; simp [wS] at hf; subst hf; decide)
    rfl
    (by intro f hf; simp [wS] at hf; subst hf; rfl)
    (by intro f hf; simp [wS] at hf; subst hf; right; decide)

/-- Suffix of a field-value list from position i. -/
def VFields.drop : Nat → VFields → VFields
  | 0, s => s
  | _+1, .nil => .nil
  | i+1, .cons _ _ rest => VFields.drop i rest

/-- Well-typedness of a struct value against its type, one level deep: the
field names agree in order and each stored value's reflected type is the
declared field type. Every value a Go program can hold satisfies this. -/
def wfFieldsB : GFields → VFields → Bool
  | .nil, .nil => true
  | .cons n _ ty _ _ grest, .cons n' v vrest =>
    n == n' &&
      (match v.typeV with
        | .ok ty' => ty' == ty
        | .error _ => false) &&
      wfFieldsB grest vrest
  | _, _ => false

/-- The destination invariant of the scan loop: the pointee's stored field
values line up with the destination struct type's declared fields, by name. -/
def destParallel (dgfs : GFields) (dfs : VFields) : Prop :=
  ∀ n, match dfs.lookup n, dgfs.lookupT n with
    | some v, some ty => v.typeV = .ok ty
    | none, none => True
    | _, _ => False

/-- The exact condition under which scanInto overwrites the destination
field named n, phrased over declared types as the claim does: the allowlist
admits n (or none was supplied), both sides declare a field named n, the
name is exported (writable), and the declared types are identical. -/
def scanCond (fields : List String) (gfs dgfs : GFields) (n : String) : Bool :=
  (fields.isEmpty || fields.contains n) && isExported n &&
    (match gfs.lookupT n, dgfs.lookupT n with
      | some a, some b => a == b
      | _, _ => false)

theorem Value.isValid_of_typeV (v : Value) (ty : GoType) (h : v.typeV = .ok ty) :
    v.isValid = true := by
  cases v <;> simp_all [Value.typeV, Value.isValid]

theorem GFields.lookupT_eq_none : ∀ (g : GFields) (n : String),
    n ∉ g.names → g.lookupT n = none
  | .nil, _, _ => rfl
  | .cons n0 tg ty an ix rest, n, h => by
    have hne : n0 ≠ n := by
      intro he
      exact h (by simp [GFields.names, he])
    simp only [GFields.lookupT, hne, if_false]
    exact GFields.lookupT_eq_none rest n (fun hm => h (by simp [GFields.names, hm]))

theorem wfFieldsB_cons (n0 : String) (tg : Tag) (ty : GoType) (an : Bool)
    (ix : List Nat) (grest : GFields) (vfs : VFields)
    (h : wfFieldsB (.cons n0 tg ty an ix grest) vfs = true) :
    ∃ v vrest, vfs = .cons n0 v vrest ∧ v.typeV = .ok ty ∧
      wfFieldsB grest vrest = true := by
  cases vfs with
  | nil => simp [wfFieldsB] at h
  | cons n' v vrest =>
    simp only [wfFieldsB, Bool.and_eq_true, beq_iff_eq] at h
    obtain ⟨⟨hn, hty⟩, hrest⟩ := h
    refine ⟨v, vrest, by rw [hn], ?_, hrest⟩
    cases htv : v.typeV with
    | ok ty' =>
      rw [htv] at hty
      simp only [beq_iff_eq] at hty
      rw [hty]
    | error e => rw [htv] at hty; simp at hty

theorem VFields.drop_cons : ∀ (i : Nat) (s : VFields) (n : String) (v : Value)
    (r : VFields), VFields.drop i s = .cons n v r →
      s.getEntry i = some (n, v) ∧ VFields.drop (i+1) s = r
  | 0, s, n, v, r, h => by
    subst h
    exact ⟨rfl, rfl⟩
  | i+1, .nil, n, v, r, h => by simp [VFields.drop] at h
  | i+1, .cons n' v' rest, n, v, r, h => by
    have := VFields.drop_cons i rest n v r h
    exact ⟨this.1, this.2⟩

theorem destParallel_of_wf : ∀ (g : GFields) (vfs : VFields),
    wfFieldsB g vfs = true → destParallel g vfs
  | .nil, vfs, h => by
    cases vfs with
    | nil =>
      intro n
      simp [VFields.lookup, GFields.lookupT]
    | cons n' v vrest => simp [wfFieldsB] at h
  | .cons n0 tg ty an ix grest, vfs, h => by
    obtain ⟨v, vrest, heq, htv, hrest⟩ := wfFieldsB_cons n0 tg ty an ix grest vfs h
    subst heq
    intro n
    by_cases hn : n0 = n
    · simp [VFields.lookup, GFields.lookupT, hn, htv]
    · simp only [VFields.lookup, GFields.lookupT, hn, if_false]
      exact destParallel_of_wf grest vrest hrest n
theorem skip_true_cond (fields : List String) (n : String)
    (h : 0 < fields.length ∧ n ∉ fields) :
    (fields.isEmpty || fields.contains n) = false := by
  cases fields with
  | nil => exact absurd h.1 (by simp)
  | cons a l =>
    rw [List.isEmpty_cons, Bool.false_or]
    simpa using h.2

theorem skip_false_cond (fields : List String) (n : String)
    (h : ¬(0 < fields.length ∧ n ∉ fields)) :
    (fields.isEmpty || fields.contains n) = true := by
  cases fields with
  | nil => simp
  | cons a l =>
    have hm : n ∈ a :: l := by
      by_contra hm
      exact h ⟨by simp, hm⟩
    rw [List.isEmpty_cons, Bool.false_or]
    simpa using hm

/-- The scan loop, characterised pointwise: starting at position i with the
suffix g of the source struct type's fields and a destination pointee
satisfying the invariant, the loop succeeds and the final pointee holds, at
every name, the source's stored value when scanCond admits the name and its
prior value otherwise. -/
theorem scanLoop_spec (st dt : GoType) (sfs : VFields) (fields : List String)
    (dgfs : GFields) :
    ∀ (g : GFields) (i : Nat) (cur : VFields),
      g.names.Nodup →
      wfFieldsB g (VFields.drop i sfs) = true →
      destParallel dgfs cur →
      ∃ cur', scanLoop (.vStruct st sfs) fields g i (.vStruct dt cur) =
          .ok (.vStruct dt cur') ∧
        destParallel dgfs cur' ∧
        ∀ n, cur'.lookup n =
          if scanCond fields g dgfs n then (VFields.drop i sfs).lookup n
          else cur.lookup n
  | .nil, i, cur, _, _, hpar => by
    refine ⟨cur, rfl, hpar, ?_⟩
    intro n
    simp [scanCond, GFields.lookupT]
  | .cons n0 tg0 ty0 an0 ix0 grest, i, cur, hnd, hwf, hpar => by
    obtain ⟨v0, r, hdrop, htv0, hwfrest⟩ :=
      wfFieldsB_cons n0 tg0 ty0 an0 ix0 grest _ hwf
    obtain ⟨hget, hdropsucc⟩ := VFields.drop_cons i sfs n0 v0 r hdrop
    have hndc := List.nodup_cons.mp (by simpa [GFields.names] using hnd)
    have hn0rest : n0 ∉ grest.names := hndc.1
    have hndrest : grest.names.Nodup := hndc.2
    have hcondrest_n0 : scanCond fields grest dgfs n0 = false := by
      simp [scanCond, GFields.lookupT_eq_none grest n0 hn0rest]
    have hwfrest' : wfFieldsB grest (VFields.drop (i+1) sfs) = true := by
      rw [hdropsucc]
      exact hwfrest
    have hlookup_head : (VFields.drop i sfs).lookup n0 = some v0 := by
      rw [hdrop]
      simp [VFields.lookup]
    have hlookup_tail : ∀ n, n ≠ n0 →
        (VFields.drop i sfs).lookup n = (VFields.drop (i+1) sfs).lookup n := by
      intro n hn
      rw [hdrop, hdropsucc]
      simp [VFields.lookup, Ne.symm hn]
    have hcons_tail : ∀ n, n ≠ n0 →
        scanCond fields (.cons n0 tg0 ty0 an0 ix0 grest) dgfs n =
          scanCond fields grest dgfs n := by
      intro n hn
      simp [scanCond, GFields.lookupT, Ne.symm hn]
    have hlookT_head : GFields.lookupT (.cons n0 tg0 ty0 an0 ix0 grest) n0 =
        some ty0 := by
      simp [GFields.lookupT]
    by_cases hskip : 0 < fields.length ∧ n0 ∉ fields
    · have hcond_n0f : (fields.isEmpty || fields.contains n0) = false :=
        skip_true_cond fields n0 hskip
      obtain ⟨cur', hrun, hpar', hpt⟩ :=
        scanLoop_spec st dt sfs fields dgfs grest (i+1) cur hndrest hwfrest' hpar
      refine ⟨cur', ?_, hpar', ?_⟩
      · simpa [scanLoop, hskip] using hrun
      · intro n
        by_cases hn : n = n0
        · rw [hn, hpt n0, hcondrest_n0]
          have hnil : fields ≠ [] := List.ne_nil_of_length_pos hskip.1
          simp [scanCond, hnil, hskip.2]
        · rw [hpt n, hcons_tail n hn]
          by_cases hc : scanCond fields grest dgfs n = true
          · simp [hc, hlookup_tail n hn]
          · simp [hc]
    · have hcond1 : (fields.isEmpty || fields.contains n0) = true :=
        skip_false_cond fields n0 hskip
      have hcond1P : fields = [] ∨ n0 ∈ fields := by
        rcases Decidable.em (fields = []) with he | he
        · exact Or.inl he
        · right
          by_contra hm
          exact hskip ⟨List.length_pos.mpr he, hm⟩
      have hfv : (Value.vStruct st sfs).fieldV i = .ok v0 := by
        simp [Value.fieldV, hget]
      cases hlk : cur.lookup n0 with
      | none =>
        have hdg : dgfs.lookupT n0 = none := by
          have hp := hpar n0
          rw [hlk] at hp
          revert hp
          cases dgfs.lookupT n0 <;> simp
        obtain ⟨cur', hrun, hpar', hpt⟩ :=
          scanLoop_spec st dt sfs fields dgfs grest (i+1) cur hndrest hwfrest' hpar
        refine ⟨cur', ?_, hpar', ?_⟩
        · simpa [scanLoop, hskip, hfv, Value.fieldByNameV, hlk, Value.isValid,
            except_ok_bind] using hrun
        · intro n
          by_cases hn : n = n0
          · rw [hn, hpt n0, hcondrest_n0]
            simp [scanCond, hlookT_head, hdg]
          · rw [hpt n, hcons_tail n hn]
            by_cases hc : scanCond fields grest dgfs n = true
            · simp [hc, hlookup_tail n hn]
            · simp [hc]
      | some d =>
        obtain ⟨tyd, hdgq, htyd⟩ : ∃ tyd, dgfs.lookupT n0 = some tyd ∧
            d.typeV = .ok tyd := by
          have hp := hpar n0
          rw [hlk] at hp
          revert hp
          cases hdq : dgfs.lookupT n0 with
          | none => simp
          | some tyd => intro hp; exact ⟨tyd, rfl, hp⟩
        have hdvalid : d.isValid = true := Value.isValid_of_typeV d tyd htyd
        by_cases hexp : isExported n0 = true
        · by_cases heq : tyd = ty0
          · subst heq
            have hpar1 : destParallel dgfs (cur.upd n0 v0) := by
              intro n
              by_cases hn : n = n0
              · rw [hn, VFields.lookup_upd_self cur n0 d v0 hlk, hdgq]
                exact htv0
              · rw [VFields.lookup_upd_ne cur n0 n v0 hn]
                exact hpar n
            obtain ⟨cur', hrun, hpar', hpt⟩ :=
              scanLoop_spec st dt sfs fields dgfs grest (i+1) (cur.upd n0 v0)
                hndrest hwfrest' hpar1
            refine ⟨cur', ?_, hpar', ?_⟩
            · simpa [scanLoop, hskip, hfv, Value.fieldByNameV, hlk, hdvalid,
                hexp, htyd, htv0, except_ok_bind, Value.setFieldByNameV]
                using hrun
            · intro n
              by_cases hn : n = n0
              · rw [hn, hpt n0, hcondrest_n0]
                have hcondT :
                    scanCond fields (.cons n0 tg0 tyd an0 ix0 grest) dgfs n0 =
                      true := by
                  simp [scanCond, hcond1P, hexp, hlookT_head, hdgq]
                simp [hcondT, hlookup_head,
                  VFields.lookup_upd_self cur n0 d v0 hlk]
              · rw [hpt n, hcons_tail n hn,
                  VFields.lookup_upd_ne cur n0 n v0 hn]
                by_cases hc : scanCond fields grest dgfs n = true
                · simp [hc, hlookup_tail n hn]
                · simp [hc]
          · have hne2 : (ty0 == tyd) = false := by
              simp only [beq_eq_false_iff_ne, ne_eq]
              intro hc
              exact heq hc.symm
            obtain ⟨cur', hrun, hpar', hpt⟩ :=
              scanLoop_spec st dt sfs fields dgfs grest (i+1) cur hndrest
                hwfrest' hpar
            refine ⟨cur', ?_, hpar', ?_⟩
            · simpa [scanLoop, hskip, hfv, Value.fieldByNameV, hlk, hdvalid,
                hexp, htyd, htv0, except_ok_bind, heq] using hrun
            · intro n
              by_cases hn : n = n0
              · rw [hn, hpt n0, hcondrest_n0]
                simp [scanCond, hlookT_head, hdgq, hne2]
              · rw [hpt n, hcons_tail n hn]
                by_cases hc : scanCond fields grest dgfs n = true
                · simp [hc, hlookup_tail n hn]
                · simp [hc]
        · obtain ⟨cur', hrun, hpar', hpt⟩ :=
            scanLoop_spec st dt sfs fields dgfs grest (i+1) cur hndrest
              hwfrest' hpar
          refine ⟨cur', ?_, hpar', ?_⟩
          · simpa [scanLoop, hskip, hfv, Value.fieldByNameV, hlk, hdvalid,
              hexp, except_ok_bind] using hrun
          · intro n
            by_cases hn : n = n0
            · rw [hn, hpt n0, hcondrest_n0]
              simp [scanCond, hexp]
            · rw [hpt n, hcons_tail n hn]
              by_cases hc : scanCond fields grest dgfs n = true
              · simp [hc, hlookup_tail n hn]
              · simp [hc]

/-- The one-field record type of the C4 concrete inputs. -/
def c4T : GoType := .tStruct (.cons "A" [] .tInt false [0] .nil)

/-- A valid destination for the C4 concrete inputs: a non-nil pointer to a
record with one int field A holding 0. -/
def c4Dest : Value := .vPtr c4T (.somev (.vStruct c4T (.cons "A" (.vInt 0) .nil)))

/-- C4 counterexample: a nil pointer to a record type passed as the source.
After the one-level unwrap the source type is a record, and the destination
is a valid pointer to a record, so the claim requires the call to return no
error and copy the matching fields; instead the loop's first field access on
the invalid unwrapped source value panics, so scanInto returns neither
success nor its recoverable error. -/
theorem c4_scanInto_nil_source_counterexample :
    scanInto (.vPtr c4T .null) c4Dest [] =
      .error "reflect: call of reflect.Value.Field on zero Value" ∧
    ∀ r : Except String Value, scanInto (.vPtr c4T .null) c4Dest [] ≠ .ok r := by
  refine ⟨rfl, ?_⟩
  intro r hr
  rw [show scanInto (.vPtr c4T .null) c4Dest [] =
    .error "reflect: call of reflect.Value.Field on zero Value" from rfl] at hr
  exact Except.noConfusion hr

/-- C4 amended: scanInto returns its recoverable error exactly at the
structural failures the claim names - the source, after unwrapping one
pointer level, is not a record, or the destination is not a pointer to a
record - and on an actual (non-nil) record source and non-nil destination
pointer it succeeds and overwrites exactly those destination fields
admitted by scanCond (allowlist membership when supplied, presence by name
on both sides, writability, identical declared types), leaving every other
destination field at its prior value. A nil source or destination pointer
panics inside reflect instead, as the counterexample records. -/
theorem c4_scanInto_amended :
    (∀ (src dest : Value) (fields : List String) (ts td : GoType),
      src.typeV = .ok ts → dest.typeV = .ok td →
      ((if ts.kind = .kPtr then ts.elemT else ts).kind ≠ .kStruct ∨
        td.kind ≠ .kPtr ∨ td.elemT.kind ≠ .kStruct) →
      ∃ e, scanInto src dest fields = .ok (.error e)) ∧
    (∀ (src dest : Value) (fields : List String) (gfs dgfs : GFields)
        (sfs dfs : VFields),
      (src = .vStruct (.tStruct gfs) sfs ∨
        src = .vPtr (.tStruct gfs) (.somev (.vStruct (.tStruct gfs) sfs))) →
      dest = .vPtr (.tStruct dgfs) (.somev (.vStruct (.tStruct dgfs) dfs)) →
      gfs.names.Nodup →
      wfFieldsB gfs sfs = true →
      wfFieldsB dgfs dfs = true →
      ∃ dfs', scanInto src dest fields =
          .ok (.ok (.vStruct (.tStruct dgfs) dfs')) ∧
        ∀ n, dfs'.lookup n =
          if scanCond fields gfs dgfs n then sfs.lookup n else dfs.lookup n) := by
  constructor
  · intro src dest fields ts td hts htd hbad
    by_cases h1 : (if ts.kind = .kPtr then ts.elemT else ts).kind = .kStruct
    · by_cases h2 : td.kind = .kPtr
      · by_cases h3 : td.elemT.kind = .kStruct
        · rcases hbad with hb | hb | hb
          · exact absurd h1 hb
          · exact absurd h2 hb
          · exact absurd h3 hb
        · refine ⟨"Destination is not a pointer to a struct", ?_⟩
          simp [scanInto, hts, htd, except_ok_bind, h1, h2, h3, pure,
            Except.pure]
      · refine ⟨"Destination is not a pointer", ?_⟩
        simp [scanInto, hts, htd, except_ok_bind, h1, h2, pure, Except.pure]
    · refine ⟨"Source is not a struct", ?_⟩
      simp [scanInto, hts, htd, except_ok_bind, h1, pure, Except.pure]
  · intro src dest fields gfs dgfs sfs dfs hsrc hdest hnodup hwfS hwfD
    obtain ⟨cur', hrun, hpar', hpt⟩ :=
      scanLoop_spec (.tStruct gfs) (.tStruct dgfs) sfs fields dgfs gfs 0 dfs
        hnodup hwfS (destParallel_of_wf dgfs dfs hwfD)
    subst hdest
    rcases hsrc with hs | hs <;> subst hs
    · refine ⟨cur', ?_, fun n => hpt n⟩
      simp only [scanInto, Value.typeV, except_ok_bind]
      simp [GoType.kind, GoType.elemT, Value.elemV, hrun, except_ok_bind,
        pure, Except.pure]
    · refine ⟨cur', ?_, fun n => hpt n⟩
      simp only [scanInto, Value.typeV, except_ok_bind]
      simp [GoType.kind, GoType.elemT, Value.elemV, hrun, except_ok_bind,
        pure, Except.pure]

/-- Witness for c4_scanInto_amended: a non-record source hits the error
conjunct, and a concrete one-field record source into c4Dest hits the
success conjunct, with all hypotheses discharged. -/
theorem c4_scanInto_amended_witness :
    (∃ e, scanInto (.vInt 3) c4Dest [] = .ok (.error e)) ∧
    (∃ dfs', scanInto (.vStruct c4T (.cons "A" (.vInt 7) .nil)) c4Dest [] =
        .ok (.ok (.vStruct (.tStruct (.cons "A" [] .tInt false [0] .nil)) dfs')) ∧
      ∀ n, dfs'.lookup n =
        if scanCond [] (.cons "A" [] .tInt false [0] .nil)
            (.cons "A" [] .tInt false [0] .nil) n
        then (VFields.cons "A" (.vInt 7) .nil).lookup n
        else (VFields.cons "A" (.vInt 0) .nil).lookup n) := by
  constructor
  · exact c4_scanInto_amended.1 (.vInt 3) c4Dest [] .tInt (.tPtr c4T) rfl rfl
      (Or.inl (by decide))
  · exact c4_scanInto_amended.2 (.vStruct c4T (.cons "A" (.vInt 7) .nil)) c4Dest
      [] (.cons "A" [] .tInt false [0] .nil) (.cons "A" [] .tInt false [0] .nil)
      (.cons "A" (.vInt 7) .nil) (.cons "A" (.vInt 0) .nil)
      (Or.inl rfl) rfl (by simp [GFields.names]) rfl rfl
